import Mathlib

/-!
# RTMP ingest gatekeeper (`core/rtmp/rtmp.go`)

A shallow embedding of the connection handler of the RTMP service: the
process-wide admission state, the teardown routine, the per-packet forwarding
rule and the relay pipeline (reader task, single-slot channel, first-packet
race and forwarding loop).

The three package-level variables `_rtmpState`, `_pipe` and `_rtmpConnection`
become the fields of `World`.  Every effect on an external collaborator
(closing a transport, closing a pipe, the registration callback, a call of the
muxer) is appended to `World.trace`, so that "closed exactly once" and "in the
original order" are statements about that list.

The goroutine started by `HandleConn` and the body of `HandleConn` that runs
beside it are embedded as a step function over `Action`s; a schedule is a list
of actions and the theorems about the relay quantify over all schedules.
-/

namespace Rtmp

/-- The values of `_rtmpState` (`FREE`, `BUSY`, `DEAD` are `iota` constants). -/
inductive RtmpState where
  | FREE
  | BUSY
  | DEAD
deriving DecidableEq, Repr

/-- Identity of a `net.Conn` handle. -/
abbrev Conn := Nat

/-- Identity of the pipe made by one call of `io.Pipe()`. -/
abbrev Pipe := Nat

/-- An `av.Packet`, kept abstract. -/
abbrev Packet := Nat

/-- The error value returned by `c.ReadPacket()`, split along the tests that
`handlePacket` performs on it: `io.EOF`, a `net.Error` (with the result of its
`Timeout()` method), or any other error. -/
inductive ReadError where
  | EOF
  | netError (timeout : Bool)
  | other
deriving DecidableEq, Repr

/-- The struct `packetRes`; `err = none` is Go's `nil`. -/
structure packetRes where
  pkt : Packet
  err : Option ReadError
deriving DecidableEq, Repr

/-- The struct `models.StreamKey`, of which only `Key` is read. -/
structure StreamKey where
  Key : String
deriving DecidableEq, Repr

/-- Effects on the collaborators of the package, in the order they happen. -/
inductive Event where
  | connClose (c : Conn)
  | pipeClose (p : Pipe)
  | setStreamAsConnected (p : Pipe)
  | writePacket (p : Pipe) (pkt : Packet)
deriving DecidableEq, Repr

/-- The package-level variables, the number of pipes made so far (the next
call of `io.Pipe()` yields the pipe with that number) and the effect trace. -/
structure World where
  rtmpState : RtmpState
  pipe : Option Pipe
  rtmpConnection : Option Conn
  pipes : Nat
  trace : List Event
deriving DecidableEq, Repr

/-- The state of the package when the process starts: `_rtmpState = FREE`,
`_pipe` and `_rtmpConnection` nil. -/
def World.start : World :=
  { rtmpState := .FREE, pipe := none, rtmpConnection := none, pipes := 0, trace := [] }

/-- What `HandleConn` reads from outside the package: the persisted keys
(`data.GetStreamKeys()`), the override (`config.TemporaryStreamKey`) and the
outcome of `w.WritePacket` of the muxer bound to a pipe, which may depend on
everything that happened before (`true` when the returned error is nil). -/
structure Env where
  GetStreamKeys : List StreamKey
  TemporaryStreamKey : String
  WritePacket : Pipe → Packet → List Event → Bool

/-- The `*flv.Muxer` made by `flv.NewMuxer(rtmpIn)`: it writes into `pipe`. -/
structure Muxer where
  pipe : Pipe
deriving DecidableEq, Repr

/-- The transports closed in a trace, in order. -/
def connCloses : List Event → List Conn
  | [] => []
  | .connClose c :: t => c :: connCloses t
  | _ :: t => connCloses t

/-- The pipes closed in a trace, in order. -/
def pipeCloses : List Event → List Pipe
  | [] => []
  | .pipeClose p :: t => p :: pipeCloses t
  | _ :: t => pipeCloses t

/-- The pipes handed to the registration callback in a trace, in order. -/
def registrations : List Event → List Pipe
  | [] => []
  | .setStreamAsConnected p :: t => p :: registrations t
  | _ :: t => registrations t

/-- The packets passed to the muxer of pipe `p` in a trace, in order. -/
def written (p : Pipe) : List Event → List Packet
  | [] => []
  | .writePacket q pkt :: t => if q = p then pkt :: written p t else written p t
  | _ :: t => written p t

/-- The function `handleDisconnect`.  `none` is the nil-pointer panic of
`_pipe.Close()` when `_pipe` was never assigned. -/
def handleDisconnect (w : World) (conn : Conn) : Option World :=
  if w.rtmpState = .FREE then some w
  else
    match w.pipe with
    | none => none
    | some p =>
      some { w with rtmpState := .FREE, trace := w.trace ++ [.connClose conn, .pipeClose p] }

/-- The function `Disconnect`. -/
def Disconnect (w : World) : Option World :=
  match w.rtmpConnection with
  | none => some w
  | some conn => handleDisconnect w conn

/-- Modelled from the spec: `secretMatch(key, path)` is called by `HandleConn`
but its body is not among the source files.  The spec (4.1) gives the matching
rule: the requested path must exactly equal the configured key value, compared
byte for byte, with no prefix, suffix or case-insensitive matching. -/
def secretMatch (key : String) (path : String) : Bool :=
  key == path

/-- The key list `validStreamingKeys` of `HandleConn` after the override test. -/
def validStreamingKeys (env : Env) : List StreamKey :=
  if env.TemporaryStreamKey ≠ "" then [{ Key := env.TemporaryStreamKey }]
  else env.GetStreamKeys

/-- The loop of `HandleConn` over `validStreamingKeys` that computes
`accessGranted`. -/
def accessGranted : List StreamKey → String → Bool
  | [], _ => false
  | key :: rest, path => if secretMatch key.Key path then true else accessGranted rest path

/-- The function `handlePacket`: the world after the call and the returned
boolean. -/
def handlePacket (env : Env) (w : Muxer) (packet : packetRes) (world : World) : World × Bool :=
  if packet.err = some .EOF then (world, false)
  else if packet.err = some (.netError true) then (world, false)
  else
    let world1 := { world with trace := world.trace ++ [.writePacket w.pipe packet.pkt] }
    if env.WritePacket w.pipe packet.pkt world.trace then (world1, true)
    else (world1, false)

/-- The goroutine started by `HandleConn`: not started, about to call
`c.ReadPacket()`, about to send the result on `packets`, or returned. -/
inductive Reader where
  | idle
  | reading
  | sending (r : packetRes)
  | exited
deriving DecidableEq, Repr

/-- Where the body of `HandleConn` stands: in the `select`, in the `for range`
loop (both with the muxer `w` in scope), or returned with the deferred
`handleDisconnect(nc)` done. -/
inductive Forwarder where
  | racing (w : Muxer)
  | looping (w : Muxer)
  | returned
deriving DecidableEq, Repr

/-- The state local to one invocation of `HandleConn`: its transport `nc`, the
results the coming calls of `c.ReadPacket()` will return, the reader goroutine,
the buffer of the channel `packets` (capacity 1) and the body of `HandleConn`. -/
structure Relay where
  nc : Conn
  source : List packetRes
  reader : Reader
  packets : Option packetRes
  fwd : Forwarder
deriving DecidableEq, Repr

/-- The function `HandleConn` from its entry to the `select`: the busy gate,
the teardown of a previous connection, the key check and the admission.  On a
rejection the invocation has returned (the deferred `handleDisconnect(nc)`
included, when it was registered); on admission the reader goroutine has been
started and the body stands in the `select`. -/
def HandleConn (env : Env) (world : World) (nc : Conn) (path : String)
    (source : List packetRes) : Option (World × Relay) :=
  let done : Relay :=
    { nc := nc, source := source, reader := .idle, packets := none, fwd := .returned }
  if world.rtmpState = .BUSY then
    some ({ world with trace := world.trace ++ [.connClose nc] }, done)
  else
    let killed : Option World :=
      match world.rtmpConnection with
      | none => some world
      | some previous => handleDisconnect world previous
    match killed with
    | none => none
    | some world1 =>
      if accessGranted (validStreamingKeys env) path then
        let rtmpIn : Pipe := world1.pipes
        some ({ rtmpState := .BUSY,
                pipe := some rtmpIn,
                rtmpConnection := some nc,
                pipes := world1.pipes + 1,
                trace := world1.trace ++ [.setStreamAsConnected rtmpIn] },
              { nc := nc, source := source, reader := .reading, packets := none,
                fwd := .racing { pipe := rtmpIn } })
      else
        match handleDisconnect world1 nc with
        | none => none
        | some world2 => some (world2, done)

/-- The moves of one invocation of `HandleConn` past admission: the reader
calls `c.ReadPacket()`, the reader sends on `packets`, the body receives from
`packets`, the ten-second timer of the `select` fires. -/
inductive Action where
  | read
  | send
  | recv
  | timer
deriving DecidableEq, Repr

/-- One move.  A move that is not possible in the current state (a receive on
an empty channel, a send on a full one, a read when the transport has nothing
yet, the timer outside the `select`) leaves the state as it is.  `none` is a
panic inside the deferred `handleDisconnect`. -/
def step (env : Env) (a : Action) (world : World) (r : Relay) : Option (World × Relay) :=
  match a with
  | .read =>
    match r.reader, r.source with
    | .reading, res :: rest => some (world, { r with reader := .sending res, source := rest })
    | _, _ => some (world, r)
  | .send =>
    match r.reader, r.packets with
    | .sending res, none =>
      some (world, { r with packets := some res,
                            reader := if res.err.isSome then .exited else .reading })
    | _, _ => some (world, r)
  | .recv =>
    match r.fwd, r.packets with
    | .racing w, some packet | .looping w, some packet =>
      match handlePacket env w packet world with
      | (world1, true) => some (world1, { r with packets := none, fwd := .looping w })
      | (world1, false) =>
        match handleDisconnect world1 r.nc with
        | none => none
        | some world2 => some (world2, { r with packets := none, fwd := .returned })
    | _, _ => some (world, r)
  | .timer =>
    match r.fwd with
    | .racing w => some ({ world with rtmpState := .FREE }, { r with fwd := .looping w })
    | _ => some (world, r)

/-- A schedule of moves, run from left to right. -/
def run (env : Env) : List Action → World → Relay → Option (World × Relay)
  | [], world, r => some (world, r)
  | a :: rest, world, r =>
    match step env a world r with
    | none => none
    | some (world1, r1) => run env rest world1 r1

/-- The keys and override of the examples: one persisted key `abc`, no
override, a muxer whose writes never fail. -/
def sampleEnv : Env :=
  { GetStreamKeys := [{ Key := "abc" }], TemporaryStreamKey := "", WritePacket := fun _ _ _ => true }

/-- The examples with the override `override123` set. -/
def overrideEnv : Env :=
  { GetStreamKeys := [{ Key := "abc" }], TemporaryStreamKey := "override123",
    WritePacket := fun _ _ _ => true }

/-- The world while connection `1` is the admitted broadcaster on pipe `0`. -/
def busyWorld : World :=
  { rtmpState := .BUSY, pipe := some 0, rtmpConnection := some 1, pipes := 1,
    trace := [.setStreamAsConnected 0] }

/-- The result the reader goroutine has read and not yet sent. -/
def Reader.held : Reader → List packetRes
  | .sending x => [x]
  | _ => []

/-- The read results on their way to the body of `HandleConn`, oldest first:
the one in the channel, the one the reader holds, those the transport has yet
to deliver. -/
def Relay.pending (r : Relay) : List packetRes :=
  r.packets.toList ++ r.reader.held ++ r.source

/-- The muxer calls that forward the payloads of `rs` in order. -/
def writes (w : Muxer) (rs : List packetRes) : List Event :=
  rs.map (fun x => Event.writePacket w.pipe x.pkt)

/-- The schedule that moves `n` read results through the pipeline one after
the other: read, send, receive. -/
def drain : Nat → List Action
  | 0 => []
  | n + 1 => [.read, .send, .recv] ++ drain n

/-- The relay is live on muxer `w`: the body is in the `select` or in the
loop, the reader goroutine is running, and no result on its way carries an
error. -/
def Relay.live (r : Relay) (w : Muxer) : Prop :=
  (r.fwd = .racing w ∨ r.fwd = .looping w) ∧
  (r.reader ≠ .idle ∧ r.reader ≠ .exited) ∧
  ∀ x ∈ r.pending, x.err = none

/-- Whether a relay is live can be computed. -/
instance Relay.decidableLive (r : Relay) (w : Muxer) : Decidable (r.live w) := by
  unfold Relay.live
  infer_instance

/-- The schedule that first empties the channel and the hands of the reader
and then moves `n` further read results through the pipeline. -/
def flush (n : Nat) : List Action :=
  [.recv, .send, .recv] ++ drain n

/-- The muxer bound to pipe `0`. -/
def sampleMuxer : Muxer :=
  { pipe := 0 }

/-- The relay of connection `1`, admitted on pipe `0`, while the body stands in
the `select`: the reader has sent a first packet and is about to read the next. -/
def racingRelay : Relay :=
  { nc := 1, source := [{ pkt := 6, err := none }], reader := .reading,
    packets := some { pkt := 5, err := none }, fwd := .racing sampleMuxer }

/-- Two connections with the valid key `abc`.  Connection `1` is admitted and
sends nothing until the timer fires; connection `2` is then admitted and
relays a packet; the transport of `1` reaches end of stream and its invocation
returns; the transport of `2` reaches end of stream and its invocation
returns.  The result is the final world and the two relays. -/
def retractionThenSecond : Option (World × Relay × Relay) :=
  match HandleConn sampleEnv World.start 1 "abc" [{ pkt := 0, err := some .EOF }] with
  | none => none
  | some (w1, a1) =>
    match run sampleEnv [.timer] w1 a1 with
    | none => none
    | some (w2, a2) =>
      match HandleConn sampleEnv w2 2 "abc"
          [{ pkt := 5, err := none }, { pkt := 0, err := some .EOF }] with
      | none => none
      | some (w3, b3) =>
        match run sampleEnv [.read, .send, .recv] w3 b3 with
        | none => none
        | some (w4, b4) =>
          match run sampleEnv [.read, .send, .recv] w4 a2 with
          | none => none
          | some (w5, a5) =>
            match run sampleEnv [.read, .send, .recv] w5 b4 with
            | none => none
            | some (w6, b6) => some (w6, a5, b6)

/-- Three connections with the valid key `abc`.  Connection `1` is admitted
and sends nothing until its timer fires; connection `2` is then admitted and
stays silent; the transport of `1` reaches end of stream and its invocation
returns through the deferred teardown; connection `3` is then admitted and its
first packet is received before its timer; last the timer of connection `2`
fires.  The result is the world right after the first packet of `3`, the world
after the timer of `2`, and the relay of `3` at the end. -/
def retractionThenThird : Option (World × World × Relay) :=
  match HandleConn sampleEnv World.start 1 "abc" [{ pkt := 0, err := some .EOF }] with
  | none => none
  | some (w1, a1) =>
    match run sampleEnv [.timer] w1 a1 with
    | none => none
    | some (w2, a2) =>
      match HandleConn sampleEnv w2 2 "abc" [] with
      | none => none
      | some (w3, b3) =>
        match run sampleEnv [.read, .send, .recv] w3 a2 with
        | none => none
        | some (w4, _) =>
          match HandleConn sampleEnv w4 3 "abc" [{ pkt := 5, err := none }] with
          | none => none
          | some (w5, c5) =>
            match run sampleEnv [.read, .send, .recv] w5 c5 with
            | none => none
            | some (w6, c6) =>
              match run sampleEnv [.timer] w6 b3 with
              | none => none
              | some (w7, _) => some (w6, w7, c6)

/-! ## Properties -/

/-- The transports closed in two traces laid end to end. -/
theorem connCloses_append (a b : List Event) : connCloses (a ++ b) = connCloses a ++ connCloses b := by
  induction a with
  | nil => rfl
  | cons e t ih => cases e <;> simp [connCloses, ih]

/-- The pipes closed in two traces laid end to end. -/
theorem pipeCloses_append (a b : List Event) : pipeCloses (a ++ b) = pipeCloses a ++ pipeCloses b := by
  induction a with
  | nil => rfl
  | cons e t ih => cases e <;> simp [pipeCloses, ih]

/-- The registrations in two traces laid end to end. -/
theorem registrations_append (a b : List Event) :
    registrations (a ++ b) = registrations a ++ registrations b := by
  induction a with
  | nil => rfl
  | cons e t ih => cases e <;> simp [registrations, ih]

/-- The packets written in two traces laid end to end. -/
theorem written_append (p : Pipe) (a b : List Event) :
    written p (a ++ b) = written p a ++ written p b := by
  induction a with
  | nil => rfl
  | cons e t ih =>
    cases e <;> simp [written, ih]
    split <;> simp

/-- The key loop grants access exactly when the path is one of the keys. -/
theorem accessGranted_iff (keys : List StreamKey) (path : String) :
    accessGranted keys path = true ↔ path ∈ keys.map StreamKey.Key := by
  induction keys with
  | nil => simp [accessGranted]
  | cons key rest ih =>
    simp only [accessGranted, secretMatch, List.map_cons, List.mem_cons]
    by_cases h : key.Key = path
    · simp [h]
    · have h2 : ¬ path = key.Key := fun e => h e.symm
      simp [h, h2, ih]

/-- The key values of `validStreamingKeys`: the override alone when it is set,
the persisted keys otherwise. -/
theorem validStreamingKeys_keys (env : Env) :
    (validStreamingKeys env).map StreamKey.Key =
      if env.TemporaryStreamKey ≠ "" then [env.TemporaryStreamKey]
      else env.GetStreamKeys.map StreamKey.Key := by
  unfold validStreamingKeys
  split <;> simp

/-- In state FREE `handleDisconnect` returns at once. -/
theorem handleDisconnect_free (w : World) (conn : Conn) (h : w.rtmpState = .FREE) :
    handleDisconnect w conn = some w := by
  simp [handleDisconnect, h]

/-- In any other state, with a current pipe, `handleDisconnect` closes the
transport, closes the pipe and sets the state to FREE. -/
theorem handleDisconnect_live (w : World) (conn : Conn) (p : Pipe)
    (h : w.rtmpState ≠ .FREE) (hp : w.pipe = some p) :
    handleDisconnect w conn =
      some { w with rtmpState := .FREE, trace := w.trace ++ [.connClose conn, .pipeClose p] } := by
  simp [handleDisconnect, h, hp]

/-- C1. When `HandleConn` is entered with a state other than BUSY it returns
or reaches the `select`, and the connection is admitted (state BUSY, the new
transport recorded as active connection, a pipe that did not exist before made
current, exactly one more registration callback, for that pipe, and the relay
started) if and only if the path is equal to a key of the effective key set:
the override alone when it is non-empty, the persisted keys otherwise.  When
the path is no such key none of these effects takes place. -/
theorem HandleConn_access_iff_key (env : Env) (world : World) (nc : Conn) (path : String)
    (source : List packetRes)
    (hgate : world.rtmpState ≠ .BUSY)
    (hpipe : world.rtmpState = .FREE ∨ world.pipe.isSome = true) :
    ∃ world1 r, HandleConn env world nc path source = some (world1, r) ∧
      ((world1.rtmpState = .BUSY ∧ world1.rtmpConnection = some nc ∧
          world1.pipe = some world.pipes ∧ world1.pipes = world.pipes + 1 ∧
          registrations world1.trace = registrations world.trace ++ [world.pipes] ∧
          r = { nc := nc, source := source, reader := .reading, packets := none,
                fwd := .racing { pipe := world.pipes } })
        ↔ path ∈ (if env.TemporaryStreamKey ≠ "" then [env.TemporaryStreamKey]
                  else env.GetStreamKeys.map StreamKey.Key)) ∧
      (path ∉ (if env.TemporaryStreamKey ≠ "" then [env.TemporaryStreamKey]
                else env.GetStreamKeys.map StreamKey.Key) →
        world1.rtmpState = .FREE ∧ world1.pipes = world.pipes ∧ world1.pipe = world.pipe ∧
          world1.rtmpConnection = world.rtmpConnection ∧
          registrations world1.trace = registrations world.trace ∧
          r.fwd = .returned ∧ r.reader = .idle) := by
  have hkeys := accessGranted_iff (validStreamingKeys env) path
  rw [validStreamingKeys_keys] at hkeys
  rw [← hkeys]
  obtain ⟨st, pp, cn, n, tr⟩ := world
  simp only at hgate hpipe
  by_cases hacc : accessGranted (validStreamingKeys env) path = true
  · cases st with
    | BUSY => exact absurd rfl hgate
    | FREE =>
      cases cn <;> simp [HandleConn, handleDisconnect, hacc] <;>
        exact ⟨_, _, ⟨rfl, rfl⟩, by simp [registrations_append, registrations]⟩
    | DEAD =>
      cases pp with
      | none => simp at hpipe
      | some p =>
        cases cn <;> simp [HandleConn, handleDisconnect, hacc] <;>
          exact ⟨_, _, ⟨rfl, rfl⟩, by simp [registrations_append, registrations]⟩
  · cases st with
    | BUSY => exact absurd rfl hgate
    | FREE =>
      cases cn <;> simp [HandleConn, handleDisconnect, hacc] <;>
        exact ⟨_, _, ⟨rfl, rfl⟩, by simp⟩
    | DEAD =>
      cases pp with
      | none => simp at hpipe
      | some p =>
        cases cn <;> simp [HandleConn, handleDisconnect, hacc] <;>
          exact ⟨_, _, ⟨rfl, rfl⟩, by simp [registrations_append, registrations]⟩

/-- C1 at concrete inputs: with the override set, a path equal to a persisted
key but not to the override is not admitted. -/
theorem HandleConn_access_iff_key_witness :
    (World.start.rtmpState ≠ .BUSY ∧
      (World.start.rtmpState = .FREE ∨ World.start.pipe.isSome = true)) ∧
    (∃ world1 r, HandleConn overrideEnv World.start 7 "abc" [] = some (world1, r) ∧
        ((world1.rtmpState = .BUSY ∧ world1.rtmpConnection = some 7 ∧
            world1.pipe = some World.start.pipes ∧ world1.pipes = World.start.pipes + 1 ∧
            registrations world1.trace = registrations World.start.trace ++ [World.start.pipes] ∧
            r = { nc := 7, source := [], reader := .reading, packets := none,
                  fwd := .racing { pipe := World.start.pipes } })
          ↔ "abc" ∈ (if overrideEnv.TemporaryStreamKey ≠ "" then [overrideEnv.TemporaryStreamKey]
                    else overrideEnv.GetStreamKeys.map StreamKey.Key)) ∧
        ("abc" ∉ (if overrideEnv.TemporaryStreamKey ≠ "" then [overrideEnv.TemporaryStreamKey]
                  else overrideEnv.GetStreamKeys.map StreamKey.Key) →
          world1.rtmpState = .FREE ∧ world1.pipes = World.start.pipes ∧
            world1.pipe = World.start.pipe ∧
            world1.rtmpConnection = World.start.rtmpConnection ∧
            registrations world1.trace = registrations World.start.trace ∧
            r.fwd = .returned ∧ r.reader = .idle)) :=
  ⟨⟨by decide, Or.inl rfl⟩,
    HandleConn_access_iff_key overrideEnv World.start 7 "abc" [] (by decide) (Or.inl rfl)⟩

/-- C2. A connection handled while the state is BUSY is closed and nothing
else happens: the state, the active connection, the current pipe and the pipe
counter are as before, the trace grows by the close of the new transport alone
(no close of a pipe or of another transport, no callback), and the invocation
has returned without starting a relay. -/
theorem HandleConn_busy_rejects (env : Env) (world : World) (nc : Conn) (path : String)
    (source : List packetRes) (hbusy : world.rtmpState = .BUSY) :
    ∃ world1 r, HandleConn env world nc path source = some (world1, r) ∧
      world1.rtmpState = .BUSY ∧ world1.rtmpConnection = world.rtmpConnection ∧
      world1.pipe = world.pipe ∧ world1.pipes = world.pipes ∧
      world1.trace = world.trace ++ [.connClose nc] ∧
      connCloses world1.trace = connCloses world.trace ++ [nc] ∧
      pipeCloses world1.trace = pipeCloses world.trace ∧
      registrations world1.trace = registrations world.trace ∧
      r.fwd = .returned ∧ r.reader = .idle := by
  refine ⟨{ world with trace := world.trace ++ [.connClose nc] },
    { nc := nc, source := source, reader := .idle, packets := none, fwd := .returned }, ?_, ?_⟩
  · simp [HandleConn, hbusy]
  · simp [hbusy, connCloses_append, pipeCloses_append, registrations_append, connCloses,
      pipeCloses, registrations]

/-- C2 at a concrete input: connection `2` arrives with the right key while
connection `1` is the admitted broadcaster. -/
theorem HandleConn_busy_rejects_witness :
    (busyWorld.rtmpState = .BUSY) ∧
    (∃ world1 r, HandleConn sampleEnv busyWorld 2 "abc" [] = some (world1, r) ∧
        world1.rtmpState = .BUSY ∧ world1.rtmpConnection = busyWorld.rtmpConnection ∧
        world1.pipe = busyWorld.pipe ∧ world1.pipes = busyWorld.pipes ∧
        world1.trace = busyWorld.trace ++ [.connClose 2] ∧
        connCloses world1.trace = connCloses busyWorld.trace ++ [2] ∧
        pipeCloses world1.trace = pipeCloses busyWorld.trace ∧
        registrations world1.trace = registrations busyWorld.trace ∧
        r.fwd = .returned ∧ r.reader = .idle) :=
  ⟨rfl,
    HandleConn_busy_rejects sampleEnv busyWorld 2 "abc" [] rfl⟩

/-- C3, the code at the failing input: state FREE, no active connection, key
set `abc`, path `/xyz`.  `HandleConn` returns with the world as it was: no
transport has been closed, the rejected transport `7` included. -/
theorem HandleConn_bad_key_leaves_transport_open :
    HandleConn sampleEnv World.start 7 "/xyz" [] =
        some (World.start, Relay.mk 7 [] .idle none .returned) ∧
      (HandleConn sampleEnv World.start 7 "/xyz" []).map (fun s => connCloses s.1.trace) =
        some [] := by
  decide

/-- In state FREE a connection whose path is no key of the effective key set
leaves the world exactly as it was: `HandleConn` returns without a single
effect, so the transport of the rejected connection is not closed. -/
theorem HandleConn_bad_key_free (env : Env) (world : World) (nc : Conn) (path : String)
    (source : List packetRes) (hfree : world.rtmpState = .FREE)
    (hkey : path ∉ (if env.TemporaryStreamKey ≠ "" then [env.TemporaryStreamKey]
                    else env.GetStreamKeys.map StreamKey.Key)) :
    HandleConn env world nc path source =
      some (world, Relay.mk nc source .idle none .returned) := by
  have hkeys := accessGranted_iff (validStreamingKeys env) path
  rw [validStreamingKeys_keys] at hkeys
  have hacc : ¬ accessGranted (validStreamingKeys env) path = true := fun h => hkey (hkeys.mp h)
  obtain ⟨st, pp, cn, n, tr⟩ := world
  simp only at hfree
  subst hfree
  cases cn <;> simp [HandleConn, handleDisconnect, hacc]

/-- C4, the claim fails: after `handleDisconnect` of the admitted connection
`1` the variable `_rtmpConnection` still holds `1`; it is not cleared. -/
theorem handleDisconnect_keeps_rtmpConnection :
    handleDisconnect busyWorld 1 =
        some { rtmpState := .FREE, pipe := some 0, rtmpConnection := some 1, pipes := 1,
               trace := [.setStreamAsConnected 0, .connClose 1, .pipeClose 0] } ∧
      ¬ ∃ world1, handleDisconnect busyWorld 1 = some world1 ∧ world1.rtmpConnection = none := by
  constructor
  · decide
  · rintro ⟨world1, h, hnone⟩
    have h2 : handleDisconnect busyWorld 1 =
        some { rtmpState := .FREE, pipe := some 0, rtmpConnection := some 1, pipes := 1,
               trace := [.setStreamAsConnected 0, .connClose 1, .pipeClose 0] } := by decide
    rw [h2] at h
    cases h
    simp at hnone

/-- C4 as amended. In every state other than FREE, with a current pipe,
`handleDisconnect conn` closes `conn`, then closes the current pipe, and sets
the state to FREE; the recorded active connection and the current pipe handle
are left as they were. -/
theorem handleDisconnect_teardown (world : World) (conn : Conn) (p : Pipe)
    (hstate : world.rtmpState ≠ .FREE) (hpipe : world.pipe = some p) :
    ∃ world1, handleDisconnect world conn = some world1 ∧
      world1.rtmpState = .FREE ∧
      world1.trace = world.trace ++ [.connClose conn, .pipeClose p] ∧
      connCloses world1.trace = connCloses world.trace ++ [conn] ∧
      pipeCloses world1.trace = pipeCloses world.trace ++ [p] ∧
      world1.rtmpConnection = world.rtmpConnection ∧
      world1.pipe = world.pipe ∧ world1.pipes = world.pipes := by
  refine ⟨_, handleDisconnect_live world conn p hstate hpipe, ?_⟩
  simp [connCloses_append, pipeCloses_append, connCloses, pipeCloses]

/-- C4 as amended, at the world in which connection `1` is admitted. -/
theorem handleDisconnect_teardown_witness :
    (busyWorld.rtmpState ≠ .FREE ∧ busyWorld.pipe = some 0) ∧
    (∃ world1, handleDisconnect busyWorld 1 = some world1 ∧
        world1.rtmpState = .FREE ∧
        world1.trace = busyWorld.trace ++ [.connClose 1, .pipeClose 0] ∧
        connCloses world1.trace = connCloses busyWorld.trace ++ [1] ∧
        pipeCloses world1.trace = pipeCloses busyWorld.trace ++ [0] ∧
        world1.rtmpConnection = busyWorld.rtmpConnection ∧
        world1.pipe = busyWorld.pipe ∧ world1.pipes = busyWorld.pipes) :=
  ⟨⟨by decide, rfl⟩,
    handleDisconnect_teardown busyWorld 1 0 (by decide) rfl⟩

/-- C5. `handleDisconnect` in state FREE returns the world unchanged; from any
state (with a current pipe whenever the state is not FREE) a second call after
the first changes nothing any more, so two calls in sequence give the world
that one call gives, with state FREE, and together they close the transport
and the pipe not at all when the state was FREE and exactly once each, the
transport first, when it was not. -/
theorem handleDisconnect_idempotent (world : World) (conn : Conn)
    (hpipe : world.rtmpState = .FREE ∨ world.pipe.isSome = true) :
    (world.rtmpState = .FREE → handleDisconnect world conn = some world) ∧
    ∃ world1, handleDisconnect world conn = some world1 ∧
      (handleDisconnect world conn).bind (fun w => handleDisconnect w conn) = some world1 ∧
      world1.rtmpState = .FREE ∧
      connCloses world1.trace =
        connCloses world.trace ++ (if world.rtmpState = .FREE then [] else [conn]) ∧
      pipeCloses world1.trace =
        pipeCloses world.trace ++ (if world.rtmpState = .FREE then [] else world.pipe.toList) ∧
      ((connCloses world1.trace).length ≤ (connCloses world.trace).length + 1) ∧
      ((pipeCloses world1.trace).length ≤ (pipeCloses world.trace).length + 1) := by
  refine ⟨handleDisconnect_free world conn, ?_⟩
  by_cases hfree : world.rtmpState = .FREE
  · refine ⟨world, handleDisconnect_free world conn hfree, ?_⟩
    simp [handleDisconnect_free world conn hfree, hfree]
  · have hsome : world.pipe.isSome = true := hpipe.resolve_left hfree
    obtain ⟨p, hp⟩ := Option.isSome_iff_exists.mp hsome
    refine ⟨_, handleDisconnect_live world conn p hfree hp, ?_⟩
    rw [handleDisconnect_live world conn p hfree hp]
    simp [handleDisconnect, hfree, hp, connCloses_append, pipeCloses_append, connCloses,
      pipeCloses]

/-- C5 at the world in which connection `1` is admitted. -/
theorem handleDisconnect_idempotent_witness :
    (busyWorld.rtmpState = .FREE ∨ busyWorld.pipe.isSome = true) ∧
    ((busyWorld.rtmpState = .FREE → handleDisconnect busyWorld 1 = some busyWorld) ∧
      ∃ world1, handleDisconnect busyWorld 1 = some world1 ∧
        (handleDisconnect busyWorld 1).bind (fun w => handleDisconnect w 1) = some world1 ∧
        world1.rtmpState = .FREE ∧
        connCloses world1.trace =
          connCloses busyWorld.trace ++ (if busyWorld.rtmpState = .FREE then [] else [1]) ∧
        pipeCloses world1.trace =
          pipeCloses busyWorld.trace ++
            (if busyWorld.rtmpState = .FREE then [] else busyWorld.pipe.toList) ∧
        ((connCloses world1.trace).length ≤ (connCloses busyWorld.trace).length + 1) ∧
        ((pipeCloses world1.trace).length ≤ (pipeCloses busyWorld.trace).length + 1)) :=
  ⟨Or.inr rfl,
    handleDisconnect_idempotent busyWorld 1 (Or.inr rfl)⟩

/-- C6, the claim fails: connection `1` is admitted and the state is BUSY;
connection `2` arrives with the valid key `abc`.  `HandleConn` closes the
transport of `2`; neither the transport nor the pipe of `1` is closed and `1`
stays the recorded active connection. -/
theorem HandleConn_busy_no_takeover :
    HandleConn sampleEnv busyWorld 2 "abc" [] =
        some ({ rtmpState := .BUSY, pipe := some 0, rtmpConnection := some 1, pipes := 1,
                trace := [.setStreamAsConnected 0, .connClose 2] },
              { nc := 2, source := [], reader := .idle, packets := none, fwd := .returned }) ∧
      connCloses [Event.setStreamAsConnected 0, Event.connClose 2] = [2] ∧
      pipeCloses [Event.setStreamAsConnected 0, Event.connClose 2] = [] := by
  decide

/-- C6 as amended. With connection `a` admitted (recorded as active connection
on the current pipe `p`) and the state BUSY, handling another connection `b`
whose path is a key of the effective key set closes the transport of `b` and
does nothing else: the transport of `a` and the pipe `p` are not closed, `a`
stays the active connection on `p`, the state stays BUSY, no pipe is made, the
callback is not invoked and no relay is started for `b`, although the key
check of `HandleConn` would have granted access. -/
theorem HandleConn_busy_keeps_active (env : Env) (world : World) (a b : Conn) (p : Pipe)
    (path : String) (source : List packetRes)
    (hbusy : world.rtmpState = .BUSY) (hconn : world.rtmpConnection = some a)
    (hpipe : world.pipe = some p) (hne : a ≠ b)
    (hkey : path ∈ (if env.TemporaryStreamKey ≠ "" then [env.TemporaryStreamKey]
                    else env.GetStreamKeys.map StreamKey.Key)) :
    accessGranted (validStreamingKeys env) path = true ∧
    ∃ world1 r, HandleConn env world b path source = some (world1, r) ∧
      world1.rtmpState = .BUSY ∧ world1.rtmpConnection = some a ∧ world1.pipe = some p ∧
      world1.pipes = world.pipes ∧
      world1.trace = world.trace ++ [.connClose b] ∧
      connCloses world1.trace = connCloses world.trace ++ [b] ∧
      (connCloses world1.trace).count a = (connCloses world.trace).count a ∧
      pipeCloses world1.trace = pipeCloses world.trace ∧
      registrations world1.trace = registrations world.trace ∧
      r.fwd = .returned ∧ r.reader = .idle := by
  have hkeys := accessGranted_iff (validStreamingKeys env) path
  rw [validStreamingKeys_keys] at hkeys
  refine ⟨hkeys.mpr hkey, { world with trace := world.trace ++ [.connClose b] },
    Relay.mk b source .idle none .returned, ?_, ?_⟩
  · simp [HandleConn, hbusy]
  · simp [hbusy, hconn, hpipe, hne, connCloses_append, pipeCloses_append, registrations_append,
      connCloses, pipeCloses, registrations, List.count_cons]

/-- C6 as amended, at the world in which connection `1` is admitted on pipe
`0` and connection `2` arrives with the valid key `abc`. -/
theorem HandleConn_busy_keeps_active_witness :
    (busyWorld.rtmpState = .BUSY ∧ busyWorld.rtmpConnection = some 1 ∧
      busyWorld.pipe = some 0 ∧ (1 : Conn) ≠ 2 ∧
      "abc" ∈ (if sampleEnv.TemporaryStreamKey ≠ "" then [sampleEnv.TemporaryStreamKey]
               else sampleEnv.GetStreamKeys.map StreamKey.Key)) ∧
    (accessGranted (validStreamingKeys sampleEnv) "abc" = true ∧
      ∃ world1 r, HandleConn sampleEnv busyWorld 2 "abc" [] = some (world1, r) ∧
        world1.rtmpState = .BUSY ∧ world1.rtmpConnection = some 1 ∧ world1.pipe = some 0 ∧
        world1.pipes = busyWorld.pipes ∧
        world1.trace = busyWorld.trace ++ [.connClose 2] ∧
        connCloses world1.trace = connCloses busyWorld.trace ++ [2] ∧
        (connCloses world1.trace).count 1 = (connCloses busyWorld.trace).count 1 ∧
        pipeCloses world1.trace = pipeCloses busyWorld.trace ∧
        registrations world1.trace = registrations busyWorld.trace ∧
        r.fwd = .returned ∧ r.reader = .idle) :=
  ⟨⟨rfl, rfl, rfl, by decide, by decide⟩,
    HandleConn_busy_keeps_active sampleEnv busyWorld 1 2 0 "abc" [] rfl rfl rfl (by decide)
      (by decide)⟩

/-- C9, the code at the failing input: a read error that is neither `io.EOF`
nor a timeout, with a muxer whose write succeeds.  `handlePacket` passes the
payload that came with the error to the muxer and returns `true`. -/
theorem handlePacket_other_error_continues :
    handlePacket sampleEnv { pipe := 0 } { pkt := 42, err := some .other } busyWorld =
      ({ rtmpState := .BUSY, pipe := some 0, rtmpConnection := some 1, pipes := 1,
         trace := [.setStreamAsConnected 0, .writePacket 0 42] }, true) := by
  decide

/-- The effect of `handlePacket` on the world: the package variables are not
touched and the trace grows by at most the one call of the muxer. -/
theorem handlePacket_world (env : Env) (w : Muxer) (packet : packetRes) (world : World) :
    (handlePacket env w packet world).1.rtmpState = world.rtmpState ∧
    (handlePacket env w packet world).1.pipe = world.pipe ∧
    (handlePacket env w packet world).1.rtmpConnection = world.rtmpConnection ∧
    (handlePacket env w packet world).1.pipes = world.pipes ∧
    connCloses (handlePacket env w packet world).1.trace = connCloses world.trace ∧
    pipeCloses (handlePacket env w packet world).1.trace = pipeCloses world.trace ∧
    registrations (handlePacket env w packet world).1.trace = registrations world.trace := by
  unfold handlePacket
  split
  · simp
  · split
    · simp
    · split <;>
        simp [connCloses_append, pipeCloses_append, registrations_append, connCloses,
          pipeCloses, registrations]

/-- A packet read without error whose write succeeds is passed to the muxer
and the relay continues. -/
theorem handlePacket_good (env : Env) (w : Muxer) (packet : packetRes) (world : World)
    (herr : packet.err = none) (hwrite : env.WritePacket w.pipe packet.pkt world.trace = true) :
    handlePacket env w packet world =
      ({ world with trace := world.trace ++ [.writePacket w.pipe packet.pkt] }, true) := by
  simp [handlePacket, herr, hwrite]

/-- The forwarding rule as the code has it: `handlePacket` returns `true`
exactly when the error is neither `io.EOF` nor a timeout and the write
succeeds, and it calls the muxer exactly when the error is neither of the two. -/
theorem handlePacket_rule (env : Env) (w : Muxer) (packet : packetRes) (world : World) :
    ((handlePacket env w packet world).2 = true ↔
      (packet.err ≠ some .EOF ∧ packet.err ≠ some (.netError true) ∧
        env.WritePacket w.pipe packet.pkt world.trace = true)) ∧
    ((handlePacket env w packet world).1.trace =
      if packet.err = some .EOF ∨ packet.err = some (.netError true) then world.trace
      else world.trace ++ [.writePacket w.pipe packet.pkt]) := by
  unfold handlePacket
  by_cases h1 : packet.err = some .EOF
  · simp [h1]
  · by_cases h2 : packet.err = some (.netError true)
    · simp [h2]
    · by_cases h3 : env.WritePacket w.pipe packet.pkt world.trace = true <;> simp [h1, h2, h3]

/-- One move with the state FREE and the body past the `select`: the state
stays FREE, the active connection and the pipe are as before and nothing is
closed, whether the body goes on or returns. -/
theorem step_free (env : Env) (a : Action) (world : World) (r : Relay)
    (hfree : world.rtmpState = .FREE) (hfwd : ∀ w, r.fwd ≠ .racing w) :
    ∃ world1 r1, step env a world r = some (world1, r1) ∧
      world1.rtmpState = .FREE ∧ (∀ w, r1.fwd ≠ .racing w) ∧
      (r1.fwd = r.fwd ∨ r1.fwd = .returned) ∧
      world1.rtmpConnection = world.rtmpConnection ∧ world1.pipe = world.pipe ∧
      connCloses world1.trace = connCloses world.trace ∧
      pipeCloses world1.trace = pipeCloses world.trace := by
  obtain ⟨nc, source, reader, packets, fwd⟩ := r
  simp only at hfwd
  cases a with
  | read =>
    cases reader <;> cases source <;> exact ⟨_, _, rfl, by simp [hfree, hfwd]⟩
  | send =>
    cases reader <;> cases packets <;> exact ⟨_, _, rfl, by simp [hfree, hfwd]⟩
  | timer =>
    cases fwd with
    | racing w => exact absurd rfl (hfwd w)
    | looping w => exact ⟨_, _, rfl, by simp [hfree]⟩
    | returned => exact ⟨_, _, rfl, by simp [hfree]⟩
  | recv =>
    cases fwd with
    | racing w => exact absurd rfl (hfwd w)
    | returned => cases packets <;> exact ⟨_, _, rfl, by simp [hfree]⟩
    | looping w =>
      cases packets with
      | none => exact ⟨_, _, rfl, by simp [hfree]⟩
      | some packet =>
        have hw := handlePacket_world env w packet world
        simp only [step]
        rcases hres : handlePacket env w packet world with ⟨world1, ok⟩
        rw [hres] at hw
        simp only at hw
        obtain ⟨h1, h2, h3, h4, h5, h6, h7⟩ := hw
        have hfree1 : world1.rtmpState = .FREE := by rw [h1]; exact hfree
        cases ok with
        | true => exact ⟨_, _, rfl, by simp [hfree1, h2, h3, h5, h6]⟩
        | false =>
          simp only [handleDisconnect_free world1 nc hfree1]
          exact ⟨_, _, rfl, by simp [hfree1, h2, h3, h5, h6]⟩

/-- Any schedule with the state FREE and the body past the `select`: the state
stays FREE, the active connection and the pipe are as before and nothing is
closed. -/
theorem run_free (env : Env) (sched : List Action) :
    ∀ (world : World) (r : Relay), world.rtmpState = .FREE → (∀ w, r.fwd ≠ .racing w) →
      ∃ world2 r2, run env sched world r = some (world2, r2) ∧
        world2.rtmpState = .FREE ∧ (∀ w, r2.fwd ≠ .racing w) ∧
        (r2.fwd = r.fwd ∨ r2.fwd = .returned) ∧
        world2.rtmpConnection = world.rtmpConnection ∧ world2.pipe = world.pipe ∧
        connCloses world2.trace = connCloses world.trace ∧
        pipeCloses world2.trace = pipeCloses world.trace := by
  induction sched with
  | nil => intro world r hfree hfwd; exact ⟨world, r, rfl, hfree, hfwd, Or.inl rfl, rfl, rfl, rfl, rfl⟩
  | cons a rest ih =>
    intro world r hfree hfwd
    obtain ⟨world1, r1, hstep, hfree1, hfwd1, hsame1, hc1, hp1, hcc1, hpc1⟩ :=
      step_free env a world r hfree hfwd
    obtain ⟨world2, r2, hrun, hfree2, hfwd2, hsame2, hc2, hp2, hcc2, hpc2⟩ :=
      ih world1 r1 hfree1 hfwd1
    refine ⟨world2, r2, ?_, hfree2, hfwd2, ?_, hc2.trans hc1, hp2.trans hp1, hcc2.trans hcc1,
      hpc2.trans hpc1⟩
    · simp [run, hstep, hrun]
    · rcases hsame2 with h | h
      · rcases hsame1 with h1 | h1
        · exact Or.inl (h.trans h1)
        · exact Or.inr (h.trans h1)
      · exact Or.inr h

/-- One move after the body has returned: the world is not touched. -/
theorem step_returned (env : Env) (a : Action) (world : World) (r : Relay)
    (hret : r.fwd = .returned) :
    ∃ r1, step env a world r = some (world, r1) ∧ r1.fwd = .returned ∧ r1.nc = r.nc := by
  obtain ⟨nc, source, reader, packets, fwd⟩ := r
  simp only at hret
  subst hret
  cases a with
  | read => cases reader <;> cases source <;> exact ⟨_, rfl, rfl, rfl⟩
  | send => cases reader <;> cases packets <;> exact ⟨_, rfl, rfl, rfl⟩
  | timer => exact ⟨_, rfl, rfl, rfl⟩
  | recv => cases packets <;> exact ⟨_, rfl, rfl, rfl⟩

/-- Any schedule after the body has returned: the world is not touched. -/
theorem run_returned (env : Env) (sched : List Action) :
    ∀ (world : World) (r : Relay), r.fwd = .returned →
      ∃ r2, run env sched world r = some (world, r2) ∧ r2.fwd = .returned := by
  induction sched with
  | nil => intro world r hret; exact ⟨r, rfl, hret⟩
  | cons a rest ih =>
    intro world r hret
    obtain ⟨r1, hstep, hret1, _⟩ := step_returned env a world r hret
    obtain ⟨r2, hrun, hret2⟩ := ih world r1 hret1
    exact ⟨r2, by simp [run, hstep, hrun], hret2⟩

/-- One move with the state BUSY and the body in the forwarding loop: either
the body stays in the loop, the state stays BUSY and nothing is closed, or the
body returns through the deferred teardown, which closes the transport of this
invocation and the current pipe once each and sets the state to FREE. -/
theorem step_busy (env : Env) (a : Action) (world : World) (r : Relay) (w : Muxer) (p : Pipe)
    (hbusy : world.rtmpState = .BUSY) (hpipe : world.pipe = some p) (hloop : r.fwd = .looping w) :
    ∃ world1 r1, step env a world r = some (world1, r1) ∧ r1.nc = r.nc ∧
      world1.pipe = some p ∧ world1.rtmpConnection = world.rtmpConnection ∧
      ((r1.fwd = .looping w ∧ world1.rtmpState = .BUSY ∧
          connCloses world1.trace = connCloses world.trace ∧
          pipeCloses world1.trace = pipeCloses world.trace) ∨
       (r1.fwd = .returned ∧ world1.rtmpState = .FREE ∧
          connCloses world1.trace = connCloses world.trace ++ [r.nc] ∧
          pipeCloses world1.trace = pipeCloses world.trace ++ [p])) := by
  obtain ⟨nc, source, reader, packets, fwd⟩ := r
  simp only at hloop
  subst hloop
  cases a with
  | read => cases reader <;> cases source <;> exact ⟨_, _, rfl, by simp [hbusy, hpipe]⟩
  | send => cases reader <;> cases packets <;> exact ⟨_, _, rfl, by simp [hbusy, hpipe]⟩
  | timer => exact ⟨_, _, rfl, by simp [hbusy, hpipe]⟩
  | recv =>
    cases packets with
    | none => exact ⟨_, _, rfl, by simp [hbusy, hpipe]⟩
    | some packet =>
      have hw := handlePacket_world env w packet world
      simp only [step]
      rcases hres : handlePacket env w packet world with ⟨world1, ok⟩
      rw [hres] at hw
      simp only at hw
      obtain ⟨h1, h2, h3, h4, h5, h6, h7⟩ := hw
      have hbusy1 : world1.rtmpState = .BUSY := by rw [h1]; exact hbusy
      have hpipe1 : world1.pipe = some p := by rw [h2]; exact hpipe
      cases ok with
      | true => exact ⟨_, _, rfl, by simp [hbusy1, hpipe1, h3, h5, h6]⟩
      | false =>
        have hne : world1.rtmpState ≠ .FREE := by rw [hbusy1]; decide
        simp only [handleDisconnect_live world1 nc p hne hpipe1]
        exact ⟨_, _, rfl, by
          simp [hpipe1, h3, h5, h6, connCloses_append, pipeCloses_append, connCloses, pipeCloses]⟩

/-- Any schedule with the state BUSY and the body in the forwarding loop: as
long as the body has not returned the state is BUSY and nothing has been
closed; once it has returned, the teardown has closed the transport of this
invocation and the current pipe once each and the state is FREE. -/
theorem run_busy (env : Env) (w : Muxer) (p : Pipe) (sched : List Action) :
    ∀ (world : World) (r : Relay), world.rtmpState = .BUSY → world.pipe = some p →
      r.fwd = .looping w →
      ∃ world2 r2, run env sched world r = some (world2, r2) ∧
        world2.pipe = some p ∧ world2.rtmpConnection = world.rtmpConnection ∧
        ((r2.fwd = .looping w ∧ world2.rtmpState = .BUSY ∧
            connCloses world2.trace = connCloses world.trace ∧
            pipeCloses world2.trace = pipeCloses world.trace) ∨
         (r2.fwd = .returned ∧ world2.rtmpState = .FREE ∧
            connCloses world2.trace = connCloses world.trace ++ [r.nc] ∧
            pipeCloses world2.trace = pipeCloses world.trace ++ [p])) := by
  induction sched with
  | nil =>
    intro world r hbusy hpipe hloop
    exact ⟨world, r, rfl, hpipe, rfl, Or.inl ⟨hloop, hbusy, rfl, rfl⟩⟩
  | cons a rest ih =>
    intro world r hbusy hpipe hloop
    obtain ⟨world1, r1, hstep, hnc1, hp1, hc1, hcase⟩ := step_busy env a world r w p hbusy hpipe hloop
    rcases hcase with ⟨hl1, hb1, hcc1, hpc1⟩ | ⟨hr1, hf1, hcc1, hpc1⟩
    · obtain ⟨world2, r2, hrun, hp2, hc2, hcase2⟩ := ih world1 r1 hb1 hp1 hl1
      refine ⟨world2, r2, by simp [run, hstep, hrun], hp2, hc2.trans hc1, ?_⟩
      rcases hcase2 with ⟨hl2, hb2, hcc2, hpc2⟩ | ⟨hr2, hf2, hcc2, hpc2⟩
      · exact Or.inl ⟨hl2, hb2, hcc2.trans hcc1, hpc2.trans hpc1⟩
      · exact Or.inr ⟨hr2, hf2, by rw [hcc2, hcc1, hnc1], by rw [hpc2, hpc1]⟩
    · obtain ⟨r2, hrun, hr2⟩ := run_returned env rest world1 r1 hr1
      exact ⟨world1, r2, by simp [run, hstep, hrun], hp1, hc1, Or.inr ⟨hr2, hf1, hcc1, hpc1⟩⟩

/-- The reader goroutine is running exactly when it is about to read or about
to send. -/
theorem Reader.running_iff (rd : Reader) :
    (rd = .reading ∨ ∃ x, rd = .sending x) ↔ (rd ≠ .idle ∧ rd ≠ .exited) := by
  cases rd <;> simp

/-- One move of a live relay whose muxer never fails: the relay stays live and
what has been written followed by what is on its way is the same as before. -/
theorem step_order (env : Env) (a : Action) (world : World) (r : Relay) (w : Muxer)
    (hwrite : ∀ pkt t, env.WritePacket w.pipe pkt t = true) (hlive : r.live w) :
    ∃ world1 r1, step env a world r = some (world1, r1) ∧ r1.live w ∧
      world1.trace ++ writes w r1.pending = world.trace ++ writes w r.pending := by
  obtain ⟨nc, source, reader, packets, fwd⟩ := r
  obtain ⟨hfwd, hrunning, hgood⟩ := hlive
  simp only at hfwd hrunning
  have hreader := (Reader.running_iff reader).mpr hrunning
  cases a with
  | read =>
    rcases hreader with h | ⟨x, h⟩
    · subst h
      cases source with
      | nil => exact ⟨_, _, rfl, ⟨hfwd, (Reader.running_iff _).mp (Or.inl rfl), hgood⟩, rfl⟩
      | cons res rest =>
        refine ⟨_, _, rfl, ⟨hfwd, (Reader.running_iff _).mp (Or.inr ⟨res, rfl⟩), ?_⟩, ?_⟩
        · simpa [Relay.pending, Reader.held] using hgood
        · simp [Relay.pending, Reader.held]
    · subst h
      cases source <;> exact ⟨_, _, rfl, ⟨hfwd, (Reader.running_iff _).mp (Or.inr ⟨x, rfl⟩), hgood⟩, rfl⟩
  | send =>
    rcases hreader with h | ⟨x, h⟩
    · subst h
      cases packets <;> exact ⟨_, _, rfl, ⟨hfwd, (Reader.running_iff _).mp (Or.inl rfl), hgood⟩, rfl⟩
    · subst h
      cases packets with
      | some y => exact ⟨_, _, rfl, ⟨hfwd, (Reader.running_iff _).mp (Or.inr ⟨x, rfl⟩), hgood⟩, rfl⟩
      | none =>
        have hx : x.err = none := hgood x (by simp [Relay.pending, Reader.held])
        refine ⟨world, Relay.mk nc source .reading (some x) fwd, ?_,
          ⟨hfwd, (Reader.running_iff _).mp (Or.inl rfl), ?_⟩, ?_⟩
        · simp [step, hx]
        · simpa [Relay.pending, Reader.held] using hgood
        · simp [Relay.pending, Reader.held]
  | timer =>
    rcases hfwd with h | h
    · subst h
      exact ⟨_, _, rfl, ⟨Or.inr rfl, hrunning, hgood⟩, rfl⟩
    · subst h
      exact ⟨_, _, rfl, ⟨Or.inr rfl, hrunning, hgood⟩, rfl⟩
  | recv =>
    cases packets with
    | none =>
      rcases hfwd with h | h <;> subst h <;>
        exact ⟨_, _, rfl, ⟨by simp, hrunning, hgood⟩, rfl⟩
    | some packet =>
      have hp : packet.err = none := hgood packet (by simp [Relay.pending])
      have hres := handlePacket_good env w packet world hp (hwrite _ _)
      have hgood1 : ∀ x ∈ (Relay.mk nc source reader none (.looping w)).pending,
          x.err = none := by
        intro x hx
        apply hgood x
        simp only [Relay.pending, Option.toList, List.nil_append, List.mem_append] at hx
        simp only [Relay.pending, Option.toList, List.mem_append, List.mem_cons]
        rcases hx with hx | hx
        · exact Or.inl (Or.inr hx)
        · exact Or.inr hx
      refine ⟨{ world with trace := world.trace ++ [.writePacket w.pipe packet.pkt] },
        Relay.mk nc source reader none (.looping w), ?_, ⟨Or.inr rfl, hrunning, hgood1⟩, ?_⟩
      · rcases hfwd with h | h <;> subst h <;> simp [step, hres]
      · simp [Relay.pending, writes]

/-- Any schedule of a live relay whose muxer never fails: the relay stays live
(it neither stops nor returns) and the trace followed by the writes of what is
still on its way equals the trace at the start followed by the writes of what
was on its way then. -/
theorem run_order (env : Env) (w : Muxer)
    (hwrite : ∀ pkt t, env.WritePacket w.pipe pkt t = true) (sched : List Action) :
    ∀ (world : World) (r : Relay), r.live w →
      ∃ world2 r2, run env sched world r = some (world2, r2) ∧ r2.live w ∧
        world2.trace ++ writes w r2.pending = world.trace ++ writes w r.pending := by
  induction sched with
  | nil => intro world r hlive; exact ⟨world, r, rfl, hlive, rfl⟩
  | cons a rest ih =>
    intro world r hlive
    obtain ⟨world1, r1, hstep, hlive1, heq1⟩ := step_order env a world r w hwrite hlive
    obtain ⟨world2, r2, hrun, hlive2, heq2⟩ := ih world1 r1 hlive1
    exact ⟨world2, r2, by simp [run, hstep, hrun], hlive2, heq2.trans heq1⟩

/-- Running a schedule in two parts. -/
theorem run_append (env : Env) :
    ∀ (s1 s2 : List Action) (world : World) (r : Relay) (world1 : World) (r1 : Relay),
      run env s1 world r = some (world1, r1) →
      run env (s1 ++ s2) world r = run env s2 world1 r1 := by
  intro s1
  induction s1 with
  | nil =>
    intro s2 world r world1 r1 h
    simp [run] at h
    obtain ⟨h1, h2⟩ := h
    subst h1 h2
    rfl
  | cons a s1 ih =>
    intro s2 world r world1 r1 h
    simp only [run, List.cons_append] at h ⊢
    cases hs : step env a world r with
    | none => rw [hs] at h; simp at h
    | some res =>
      obtain ⟨world2, r2⟩ := res
      rw [hs] at h
      simp only at h ⊢
      exact ih s2 world2 r2 world1 r1 h

/-- The schedule `drain` on a pipeline that holds nothing yet and whose
transport delivers the error-free results `src`, with a muxer that never
fails: every payload of `src` is written, in order, and nothing else happens. -/
theorem run_drain (env : Env) (w : Muxer)
    (hwrite : ∀ pkt t, env.WritePacket w.pipe pkt t = true) :
    ∀ (src : List packetRes) (world : World) (nc : Conn) (fwd : Forwarder),
      (∀ x ∈ src, x.err = none) → (fwd = .racing w ∨ fwd = .looping w) →
      run env (drain src.length) world (Relay.mk nc src .reading none fwd) =
        some ({ world with trace := world.trace ++ writes w src },
              Relay.mk nc [] .reading none (if src = [] then fwd else .looping w)) := by
  intro src
  induction src with
  | nil => intro world nc fwd _ _; simp [drain, run, writes]
  | cons x rest ih =>
    intro world nc fwd hsrc hfwd
    have hx : x.err = none := hsrc x (by simp)
    have hrest : ∀ y ∈ rest, y.err = none := fun y hy => hsrc y (by simp [hy])
    have hres := handlePacket_good env w x world hx (hwrite _ _)
    have h3 : run env [.read, .send, .recv] world (Relay.mk nc (x :: rest) .reading none fwd) =
        some ({ world with trace := world.trace ++ [.writePacket w.pipe x.pkt] },
              Relay.mk nc rest .reading none (.looping w)) := by
      rcases hfwd with h | h <;> subst h <;> simp [run, step, hx, hres]
    have := ih { world with trace := world.trace ++ [.writePacket w.pipe x.pkt] } nc
      (.looping w) hrest (Or.inr rfl)
    simp only [List.length_cons, drain]
    rw [run_append env _ _ _ _ _ _ h3, this]
    simp [writes]

/-- The schedule `flush` on a live relay whose muxer never fails: every
payload on its way is written, in order, and nothing else happens. -/
theorem run_flush (env : Env) (w : Muxer)
    (hwrite : ∀ pkt t, env.WritePacket w.pipe pkt t = true)
    (world : World) (r : Relay) (hlive : r.live w) :
    run env (flush r.source.length) world r =
      some ({ world with trace := world.trace ++ writes w r.pending },
            Relay.mk r.nc [] .reading none (if r.pending = [] then r.fwd else .looping w)) := by
  obtain ⟨nc, source, reader, packets, fwd⟩ := r
  obtain ⟨hfwd, hrunning, hgood⟩ := hlive
  simp only at hfwd hrunning
  have hreader := (Reader.running_iff reader).mpr hrunning
  have hsrc : ∀ x ∈ source, x.err = none := fun x hx => hgood x (by simp [Relay.pending, hx])
  have hdrain := run_drain env w hwrite source
  cases packets with
  | none =>
    rcases hreader with h | ⟨x, h⟩
    · subst h
      have h3 : run env [.recv, .send, .recv] world (Relay.mk nc source .reading none fwd) =
          some (world, Relay.mk nc source .reading none fwd) := by
        rcases hfwd with h | h <;> subst h <;> rfl
      simp only [flush]
      rw [run_append env _ _ _ _ _ _ h3, hdrain world nc fwd hsrc hfwd]
      simp [Relay.pending, Reader.held]
    · subst h
      have hx : x.err = none := hgood x (by simp [Relay.pending, Reader.held])
      have hres := handlePacket_good env w x world hx (hwrite _ _)
      have h3 : run env [.recv, .send, .recv] world (Relay.mk nc source (.sending x) none fwd) =
          some ({ world with trace := world.trace ++ [.writePacket w.pipe x.pkt] },
                Relay.mk nc source .reading none (.looping w)) := by
        rcases hfwd with h | h <;> subst h <;> simp [run, step, hx, hres]
      simp only [flush]
      rw [run_append env _ _ _ _ _ _ h3, hdrain _ nc (.looping w) hsrc (Or.inr rfl)]
      simp [Relay.pending, Reader.held, writes]
  | some c =>
    have hc : c.err = none := hgood c (by simp [Relay.pending])
    have hres := handlePacket_good env w c world hc (hwrite _ _)
    rcases hreader with h | ⟨x, h⟩
    · subst h
      have h3 : run env [.recv, .send, .recv] world (Relay.mk nc source .reading (some c) fwd) =
          some ({ world with trace := world.trace ++ [.writePacket w.pipe c.pkt] },
                Relay.mk nc source .reading none (.looping w)) := by
        rcases hfwd with h | h <;> subst h <;> simp [run, step, hres]
      simp only [flush]
      rw [run_append env _ _ _ _ _ _ h3, hdrain _ nc (.looping w) hsrc (Or.inr rfl)]
      simp [Relay.pending, Reader.held, writes]
    · subst h
      have hx : x.err = none := hgood x (by simp [Relay.pending, Reader.held])
      have hres2 := handlePacket_good env w x
        { world with trace := world.trace ++ [.writePacket w.pipe c.pkt] } hx (hwrite _ _)
      have h3 : run env [.recv, .send, .recv] world
          (Relay.mk nc source (.sending x) (some c) fwd) =
          some ({ world with trace := world.trace ++ [.writePacket w.pipe c.pkt] ++
                    [.writePacket w.pipe x.pkt] },
                Relay.mk nc source .reading none (.looping w)) := by
        rcases hfwd with h | h <;> subst h <;> simp [run, step, hx, hres, hres2]
      simp only [flush]
      rw [run_append env _ _ _ _ _ _ h3, hdrain _ nc (.looping w) hsrc (Or.inr rfl)]
      simp [Relay.pending, Reader.held, writes]

/-- C7, the claim fails (`retractionThenThird`): connection `3` is admitted, its
first packet is received before its timer and is forwarded on pipe `2`, and
the state is BUSY.  Then the timer of connection `2`, admitted earlier and
still standing in its `select`, fires: the state is FREE although connection
`3` is still in its forwarding loop and no teardown has run since its
admission (the only closes in the trace are those of connection `1`, made
before connection `3` arrived). -/
theorem earlier_timer_frees_state_of_later_connection :
    retractionThenThird =
      some ({ rtmpState := .BUSY, pipe := some 2, rtmpConnection := some 3, pipes := 3,
              trace := [.setStreamAsConnected 0, .setStreamAsConnected 1, .connClose 1,
                        .pipeClose 1, .setStreamAsConnected 2, .writePacket 2 5] },
            { rtmpState := .FREE, pipe := some 2, rtmpConnection := some 3, pipes := 3,
              trace := [.setStreamAsConnected 0, .setStreamAsConnected 1, .connClose 1,
                        .pipeClose 1, .setStreamAsConnected 2, .writePacket 2 5] },
            Relay.mk 3 [] .reading none (.looping { pipe := 2 })) := by
  decide

/-- C7 as amended. A connection stands in the `select` and the state is BUSY;
the schedules are those of the moves of this connection alone (its reader, its
body and its timer).  (a) If the timer fires first, that one move sets the
state to FREE and changes nothing else; under every later schedule the state
is never set again and stays FREE, the active connection and the pipe are as
they were and nothing is closed, every error-free packet that reaches the body
in the loop is passed to the muxer, and when no error is read and no write
fails the packets on their way at the timer and those the transport delivers
after it are all forwarded, in order.  (b) If a first packet on which
`handlePacket` returns `true` is received first, the state is still BUSY, the
body is in the loop, and under every later schedule the state is BUSY as long
as the body has not returned and FREE once the deferred teardown has run. -/
theorem grace_period_race (env : Env) (world : World) (r : Relay) (w : Muxer) (p : Pipe)
    (hrace : r.fwd = .racing w) (hbusy : world.rtmpState = .BUSY) (hpipe : world.pipe = some p) :
    (step env .timer world r =
        some ({ world with rtmpState := .FREE }, { r with fwd := .looping w }) ∧
      (∀ sched, ∃ world2 r2,
        run env sched { world with rtmpState := .FREE } { r with fwd := .looping w } =
          some (world2, r2) ∧
        world2.rtmpState = .FREE ∧ world2.rtmpConnection = world.rtmpConnection ∧
        world2.pipe = world.pipe ∧
        connCloses world2.trace = connCloses world.trace ∧
        pipeCloses world2.trace = pipeCloses world.trace ∧
        (r2.fwd = .looping w ∨ r2.fwd = .returned) ∧
        ∀ packet, r2.fwd = .looping w → r2.packets = some packet → packet.err = none →
          ∃ world3 r3, step env .recv world2 r2 = some (world3, r3) ∧
            world3.trace = world2.trace ++ [.writePacket w.pipe packet.pkt]) ∧
      (r.live w → (∀ pkt t, env.WritePacket w.pipe pkt t = true) →
        run env (.timer :: flush r.source.length) world r =
          some ({ world with rtmpState := .FREE, trace := world.trace ++ writes w r.pending },
                Relay.mk r.nc [] .reading none (.looping w)))) ∧
    (∀ packet, r.packets = some packet → (handlePacket env w packet world).2 = true →
      ∃ world1 r1, step env .recv world r = some (world1, r1) ∧
        world1.rtmpState = .BUSY ∧ r1.fwd = .looping w ∧
        ∀ sched, ∃ world2 r2, run env sched world1 r1 = some (world2, r2) ∧
          ((r2.fwd = .looping w ∧ world2.rtmpState = .BUSY ∧
              connCloses world2.trace = connCloses world.trace ∧
              pipeCloses world2.trace = pipeCloses world.trace) ∨
           (r2.fwd = .returned ∧ world2.rtmpState = .FREE ∧
              connCloses world2.trace = connCloses world.trace ++ [r.nc] ∧
              pipeCloses world2.trace = pipeCloses world.trace ++ [p]))) := by
  obtain ⟨nc, source, reader, packets, fwd⟩ := r
  simp only at hrace
  subst hrace
  have htimer : step env .timer world (Relay.mk nc source reader packets (.racing w)) =
      some ({ world with rtmpState := .FREE }, Relay.mk nc source reader packets (.looping w)) :=
    rfl
  refine ⟨⟨htimer, ?_, ?_⟩, ?_⟩
  · intro sched
    obtain ⟨world2, r2, hrun, hfree2, _, hsame, hc, hp, hcc, hpc⟩ :=
      run_free env sched { world with rtmpState := .FREE }
        (Relay.mk nc source reader packets (.looping w)) rfl (by simp)
    refine ⟨world2, r2, hrun, hfree2, hc, hp, hcc, hpc, hsame, ?_⟩
    intro packet hloop hpk herr
    obtain ⟨nc2, source2, reader2, packets2, fwd2⟩ := r2
    simp only at hloop hpk
    subst hloop hpk
    by_cases hw : env.WritePacket w.pipe packet.pkt world2.trace = true
    · refine ⟨{ world2 with trace := world2.trace ++ [.writePacket w.pipe packet.pkt] },
        Relay.mk nc2 source2 reader2 none (.looping w), ?_, rfl⟩
      simp only [step, handlePacket_good env w packet world2 herr hw]
    · have hres : handlePacket env w packet world2 =
          ({ world2 with trace := world2.trace ++ [.writePacket w.pipe packet.pkt] }, false) := by
        simp [handlePacket, herr, hw]
      refine ⟨{ world2 with trace := world2.trace ++ [.writePacket w.pipe packet.pkt] },
        Relay.mk nc2 source2 reader2 none .returned, ?_, rfl⟩
      simp [step, hres, handleDisconnect, hfree2]
  · intro hlive hwrite
    have hlive1 : (Relay.mk nc source reader packets (.looping w)).live w :=
      ⟨Or.inr rfl, hlive.2.1, hlive.2.2⟩
    have hf := run_flush env w hwrite { world with rtmpState := .FREE } _ hlive1
    have h1 : run env [.timer] world (Relay.mk nc source reader packets (.racing w)) =
        some ({ world with rtmpState := .FREE },
              Relay.mk nc source reader packets (.looping w)) := rfl
    show run env ([.timer] ++ flush source.length) world _ = _
    rw [run_append env _ _ _ _ _ _ h1, hf]
    simp [Relay.pending]
  · intro packet hpk hok
    simp only at hpk
    subst hpk
    have hw := handlePacket_world env w packet world
    rcases hres : handlePacket env w packet world with ⟨world1, ok⟩
    rw [hres] at hw hok
    simp only at hw hok
    subst hok
    obtain ⟨h1, h2, h3, h4, h5, h6, h7⟩ := hw
    have hbusy1 : world1.rtmpState = .BUSY := by rw [h1]; exact hbusy
    have hpipe1 : world1.pipe = some p := by rw [h2]; exact hpipe
    refine ⟨world1, Relay.mk nc source reader none (.looping w), ?_, hbusy1, rfl, ?_⟩
    · simp [step, hres]
    · intro sched
      obtain ⟨world2, r2, hrun, _, _, hcase⟩ :=
        run_busy env w p sched world1 (Relay.mk nc source reader none (.looping w)) hbusy1
          hpipe1 rfl
      refine ⟨world2, r2, hrun, ?_⟩
      rcases hcase with ⟨hl, hb, hcc, hpc⟩ | ⟨hr, hf, hcc, hpc⟩
      · exact Or.inl ⟨hl, hb, hcc.trans h5, hpc.trans h6⟩
      · exact Or.inr ⟨hr, hf, by rw [hcc, h5], by rw [hpc, h6]⟩

/-- C7 as amended, at the relay of connection `1` with its first packet in the
channel. -/
theorem grace_period_race_witness :
    (racingRelay.fwd = .racing sampleMuxer ∧ busyWorld.rtmpState = .BUSY ∧
      busyWorld.pipe = some 0) ∧
    ((step sampleEnv .timer busyWorld racingRelay =
        some ({ busyWorld with rtmpState := .FREE }, { racingRelay with fwd := .looping sampleMuxer }) ∧
      (∀ sched, ∃ world2 r2,
        run sampleEnv sched { busyWorld with rtmpState := .FREE } { racingRelay with fwd := .looping sampleMuxer } =
          some (world2, r2) ∧
        world2.rtmpState = .FREE ∧ world2.rtmpConnection = busyWorld.rtmpConnection ∧
        world2.pipe = busyWorld.pipe ∧
        connCloses world2.trace = connCloses busyWorld.trace ∧
        pipeCloses world2.trace = pipeCloses busyWorld.trace ∧
        (r2.fwd = .looping sampleMuxer ∨ r2.fwd = .returned) ∧
        ∀ packet, r2.fwd = .looping sampleMuxer → r2.packets = some packet → packet.err = none →
          ∃ world3 r3, step sampleEnv .recv world2 r2 = some (world3, r3) ∧
            world3.trace = world2.trace ++ [.writePacket sampleMuxer.pipe packet.pkt]) ∧
      (racingRelay.live sampleMuxer → (∀ pkt t, sampleEnv.WritePacket sampleMuxer.pipe pkt t = true) →
        run sampleEnv (.timer :: flush racingRelay.source.length) busyWorld racingRelay =
          some ({ busyWorld with rtmpState := .FREE, trace := busyWorld.trace ++ writes sampleMuxer racingRelay.pending },
                Relay.mk racingRelay.nc [] .reading none (.looping sampleMuxer)))) ∧
    (∀ packet, racingRelay.packets = some packet → (handlePacket sampleEnv sampleMuxer packet busyWorld).2 = true →
      ∃ world1 r1, step sampleEnv .recv busyWorld racingRelay = some (world1, r1) ∧
        world1.rtmpState = .BUSY ∧ r1.fwd = .looping sampleMuxer ∧
        ∀ sched, ∃ world2 r2, run sampleEnv sched world1 r1 = some (world2, r2) ∧
          ((r2.fwd = .looping sampleMuxer ∧ world2.rtmpState = .BUSY ∧
              connCloses world2.trace = connCloses busyWorld.trace ∧
              pipeCloses world2.trace = pipeCloses busyWorld.trace) ∨
           (r2.fwd = .returned ∧ world2.rtmpState = .FREE ∧
              connCloses world2.trace = connCloses busyWorld.trace ++ [racingRelay.nc] ∧
              pipeCloses world2.trace = pipeCloses busyWorld.trace ++ [0])))) :=
  ⟨⟨rfl, rfl, rfl⟩, grace_period_race sampleEnv busyWorld racingRelay sampleMuxer 0 rfl rfl rfl⟩

/-- C8, the code at two failing inputs.  First: connection `7` is admitted on
pipe `0`, the timer fires, then the transport reports end of stream;
`HandleConn` returns and neither the transport `7` nor pipe `0` has been
closed.  Second (`retractionThenSecond`): after the retraction of connection
`1` (pipe `0`) connection `2` is admitted on pipe `1`; when both invocations
have returned, transport `1` and pipe `1` have been closed once each, by the
teardown of connection `1`, while pipe `0` and transport `2` were never
closed. -/
theorem retraction_breaks_resource_discipline :
    ((HandleConn sampleEnv World.start 7 "abc" [{ pkt := 0, err := some .EOF }]).bind
        (fun s => run sampleEnv [.timer, .read, .send, .recv] s.1 s.2) =
      some ({ rtmpState := .FREE, pipe := some 0, rtmpConnection := some 7, pipes := 1,
              trace := [.setStreamAsConnected 0] },
            Relay.mk 7 [] .exited none .returned)) ∧
    (retractionThenSecond =
      some ({ rtmpState := .FREE, pipe := some 1, rtmpConnection := some 2, pipes := 2,
              trace := [.setStreamAsConnected 0, .setStreamAsConnected 1, .writePacket 1 5,
                        .connClose 1, .pipeClose 1] },
            Relay.mk 1 [] .exited none .returned,
            Relay.mk 2 [] .exited none .returned)) ∧
    connCloses [Event.setStreamAsConnected 0, .setStreamAsConnected 1, .writePacket 1 5,
                .connClose 1, .pipeClose 1] = [1] ∧
    pipeCloses [Event.setStreamAsConnected 0, .setStreamAsConnected 1, .writePacket 1 5,
                .connClose 1, .pipeClose 1] = [1] := by
  decide

/-- C10, the code at the failing input: the transport delivers packet `1` and
then a read error that is neither `io.EOF` nor a timeout, carrying payload
`9`.  The relay passes `1` and then `9` to the muxer, the reader goroutine has
returned, and the body of `HandleConn` is still in its loop. -/
theorem relay_forwards_payload_of_read_error :
    ((HandleConn sampleEnv World.start 7 "abc"
          [{ pkt := 1, err := none }, { pkt := 9, err := some .other }]).bind
        (fun s => run sampleEnv [.read, .send, .recv, .read, .send, .recv] s.1 s.2) =
      some ({ rtmpState := .BUSY, pipe := some 0, rtmpConnection := some 7, pipes := 1,
              trace := [.setStreamAsConnected 0, .writePacket 0 1, .writePacket 0 9] },
            Relay.mk 7 [] .exited none (.looping { pipe := 0 }))) ∧
    written 0 [Event.setStreamAsConnected 0, .writePacket 0 1, .writePacket 0 9] = [1, 9] := by
  decide

/-- The packets written by `writes` are the payloads, in order. -/
theorem written_writes (w : Muxer) (rs : List packetRes) :
    written w.pipe (writes w rs) = rs.map packetRes.pkt := by
  induction rs with
  | nil => rfl
  | cons x rest ih =>
    have : writes w (x :: rest) = Event.writePacket w.pipe x.pkt :: writes w rest := rfl
    rw [this]
    simp only [written, if_true, List.map_cons]
    rw [ih]

/-- Packet ordering for error-free input and a muxer that never fails: under
every schedule (the timer included, wherever it falls) the packets passed to
the muxer followed by the payloads still on their way are the packets passed
before followed by the payloads that were on their way, so nothing is dropped,
duplicated or reordered; and the schedule `flush` passes all of them. -/
theorem relay_order (env : Env) (w : Muxer)
    (hwrite : ∀ pkt t, env.WritePacket w.pipe pkt t = true)
    (world : World) (r : Relay) (hlive : r.live w) :
    (∀ sched, ∃ world2 r2, run env sched world r = some (world2, r2) ∧ r2.live w ∧
      written w.pipe world2.trace ++ r2.pending.map packetRes.pkt =
        written w.pipe world.trace ++ r.pending.map packetRes.pkt) ∧
    (∃ world2 r2, run env (flush r.source.length) world r = some (world2, r2) ∧
      r2.pending = [] ∧
      written w.pipe world2.trace = written w.pipe world.trace ++ r.pending.map packetRes.pkt) := by
  constructor
  · intro sched
    obtain ⟨world2, r2, hrun, hlive2, heq⟩ := run_order env w hwrite sched world r hlive
    refine ⟨world2, r2, hrun, hlive2, ?_⟩
    have := congrArg (written w.pipe) heq
    simpa [written_append, written_writes] using this
  · refine ⟨_, _, run_flush env w hwrite world r hlive, rfl, ?_⟩
    simp [written_append, written_writes]

/-- The reader goroutine after a read error: sending the result makes it
return, and once it has returned no schedule makes it read again. -/
theorem reader_stops_after_error (env : Env) (world : World) (r : Relay) (x : packetRes)
    (e : ReadError) (hsend : r.reader = .sending x) (hchan : r.packets = none)
    (herr : x.err = some e) :
    step env .send world r = some (world, { r with packets := some x, reader := .exited }) ∧
    ∀ (sched : List Action) (world1 : World) (r1 : Relay) (world2 : World) (r2 : Relay),
      r1.reader = .exited → run env sched world1 r1 = some (world2, r2) →
      r2.reader = .exited ∧ r2.source = r1.source := by
  constructor
  · obtain ⟨nc, source, reader, packets, fwd⟩ := r
    simp only at hsend hchan
    subst hsend hchan
    simp [step, herr]
  · intro sched
    induction sched with
    | nil =>
      intro world1 r1 world2 r2 hex hrun
      simp [run] at hrun
      obtain ⟨_, h2⟩ := hrun
      subst h2
      exact ⟨hex, rfl⟩
    | cons a rest ih =>
      intro world1 r1 world2 r2 hex hrun
      simp only [run] at hrun
      cases hs : step env a world1 r1 with
      | none => rw [hs] at hrun; simp at hrun
      | some res =>
        obtain ⟨world3, r3⟩ := res
        rw [hs] at hrun
        simp only at hrun
        have h3 : r3.reader = .exited ∧ r3.source = r1.source := by
          obtain ⟨nc, source, reader, packets, fwd⟩ := r1
          simp only at hex
          subst hex
          cases a with
          | read =>
            cases source <;> simp [step] at hs <;> obtain ⟨_, h⟩ := hs <;> subst h <;> exact ⟨rfl, rfl⟩
          | send =>
            cases packets <;> simp [step] at hs <;> obtain ⟨_, h⟩ := hs <;> subst h <;>
              exact ⟨rfl, rfl⟩
          | timer =>
            cases fwd <;> simp [step] at hs <;> obtain ⟨_, h⟩ := hs <;> subst h <;> exact ⟨rfl, rfl⟩
          | recv =>
            cases fwd <;> cases packets <;> simp only [step] at hs
            all_goals first
              | (simp at hs; obtain ⟨_, h⟩ := hs; subst h; exact ⟨rfl, rfl⟩)
              | (split at hs
                 · simp at hs; obtain ⟨_, h⟩ := hs; subst h; exact ⟨rfl, rfl⟩
                 · split at hs
                   · simp at hs
                   · simp at hs; obtain ⟨_, h⟩ := hs; subst h; exact ⟨rfl, rfl⟩)
        obtain ⟨h4, h5⟩ := ih world3 r3 world2 r2 h3.1 hrun
        exact ⟨h4, h5.trans h3.2⟩

/-- The condition under which `handleDisconnect` cannot panic, a pipe exists
whenever the state is not FREE, holds when the process starts and is kept by
`handleDisconnect`, `Disconnect`, `HandleConn` and every move of a relay, none
of which then panics. -/
theorem pipe_exists_unless_free :
    (World.start.rtmpState = .FREE ∨ World.start.pipe.isSome = true) ∧
    (∀ (world : World) (conn : Conn), (world.rtmpState = .FREE ∨ world.pipe.isSome = true) →
      ∃ world1, handleDisconnect world conn = some world1 ∧
        (world1.rtmpState = .FREE ∨ world1.pipe.isSome = true)) ∧
    (∀ (world : World), (world.rtmpState = .FREE ∨ world.pipe.isSome = true) →
      ∃ world1, Disconnect world = some world1 ∧
        (world1.rtmpState = .FREE ∨ world1.pipe.isSome = true)) ∧
    (∀ (env : Env) (world : World) (nc : Conn) (path : String) (source : List packetRes),
      (world.rtmpState = .FREE ∨ world.pipe.isSome = true) →
      ∃ world1 r, HandleConn env world nc path source = some (world1, r) ∧
        (world1.rtmpState = .FREE ∨ world1.pipe.isSome = true)) ∧
    (∀ (env : Env) (a : Action) (world : World) (r : Relay),
      (world.rtmpState = .FREE ∨ world.pipe.isSome = true) →
      ∃ world1 r1, step env a world r = some (world1, r1) ∧
        (world1.rtmpState = .FREE ∨ world1.pipe.isSome = true)) := by
  have hd : ∀ (world : World) (conn : Conn),
      (world.rtmpState = .FREE ∨ world.pipe.isSome = true) →
      ∃ world1, handleDisconnect world conn = some world1 ∧
        (world1.rtmpState = .FREE ∨ world1.pipe.isSome = true) := by
    intro world conn h
    by_cases hfree : world.rtmpState = .FREE
    · exact ⟨world, handleDisconnect_free world conn hfree, h⟩
    · obtain ⟨p, hp⟩ := Option.isSome_iff_exists.mp (h.resolve_left hfree)
      exact ⟨_, handleDisconnect_live world conn p hfree hp, Or.inl rfl⟩
  refine ⟨Or.inl rfl, hd, ?_, ?_, ?_⟩
  · intro world h
    unfold Disconnect
    cases world.rtmpConnection with
    | none => exact ⟨world, rfl, h⟩
    | some conn => exact hd world conn h
  · intro env world nc path source h
    by_cases hbusy : world.rtmpState = .BUSY
    · have hv : HandleConn env world nc path source =
          some ({ world with trace := world.trace ++ [.connClose nc] },
                Relay.mk nc source .idle none .returned) := by
        simp [HandleConn, hbusy]
      exact ⟨_, _, hv, by simpa [hbusy] using h⟩
    · have hk : ∃ world1, (match world.rtmpConnection with
          | none => some world
          | some previous => handleDisconnect world previous) = some world1 ∧
          (world1.rtmpState = .FREE ∨ world1.pipe.isSome = true) := by
        cases world.rtmpConnection with
        | none => exact ⟨world, rfl, h⟩
        | some previous => exact hd world previous h
      obtain ⟨world1, hk1, hs1⟩ := hk
      by_cases hacc : accessGranted (validStreamingKeys env) path = true
      · have hv : HandleConn env world nc path source =
            some ({ rtmpState := .BUSY, pipe := some world1.pipes, rtmpConnection := some nc,
                    pipes := world1.pipes + 1,
                    trace := world1.trace ++ [.setStreamAsConnected world1.pipes] },
                  Relay.mk nc source .reading none (.racing { pipe := world1.pipes })) := by
          simp [HandleConn, hbusy, hk1, hacc]
        exact ⟨_, _, hv, Or.inr rfl⟩
      · obtain ⟨world2, hd2, hs2⟩ := hd world1 nc hs1
        have hv : HandleConn env world nc path source =
            some (world2, Relay.mk nc source .idle none .returned) := by
          simp [HandleConn, hbusy, hk1, hacc, hd2]
        exact ⟨_, _, hv, hs2⟩
  · intro env a world r h
    obtain ⟨nc, source, reader, packets, fwd⟩ := r
    cases a with
    | read => cases reader <;> cases source <;> exact ⟨_, _, rfl, h⟩
    | send => cases reader <;> cases packets <;> exact ⟨_, _, rfl, h⟩
    | timer => cases fwd <;> first | exact ⟨_, _, rfl, h⟩ | exact ⟨_, _, rfl, Or.inl rfl⟩
    | recv =>
      have key : ∀ (w : Muxer) (packet : packetRes),
          ∃ world1 r1, (match handlePacket env w packet world with
            | (world1, true) => some (world1, Relay.mk nc source reader none (.looping w))
            | (world1, false) =>
              match handleDisconnect world1 nc with
              | none => none
              | some world2 => some (world2, Relay.mk nc source reader none .returned)) =
              some (world1, r1) ∧ (world1.rtmpState = .FREE ∨ world1.pipe.isSome = true) := by
        intro w packet
        have hw := handlePacket_world env w packet world
        rcases hres : handlePacket env w packet world with ⟨world1, ok⟩
        rw [hres] at hw
        simp only at hw
        obtain ⟨h1, h2, _⟩ := hw
        have hs1 : world1.rtmpState = .FREE ∨ world1.pipe.isSome = true := by
          rw [h1, h2]; exact h
        cases ok with
        | true => exact ⟨_, _, rfl, hs1⟩
        | false =>
          obtain ⟨world2, hd2, hs2⟩ := hd world1 nc hs1
          exact ⟨world2, Relay.mk nc source reader none .returned, by simp only [hd2], hs2⟩
      cases fwd with
      | returned => cases packets <;> exact ⟨_, _, rfl, h⟩
      | racing w =>
        cases packets with
        | none => exact ⟨_, _, rfl, h⟩
        | some packet => exact key w packet
      | looping w =>
        cases packets with
        | none => exact ⟨_, _, rfl, h⟩
        | some packet => exact key w packet

/-- The grace period on a concrete relay.  Timer first: the state becomes FREE
and the two pending packets `5` and `6` are still forwarded, in order, with
nothing closed.  Packet first: packet `5` is forwarded and the state stays
BUSY. -/
theorem grace_period_example :
    run sampleEnv (.timer :: flush 1) busyWorld racingRelay =
      some ({ rtmpState := .FREE, pipe := some 0, rtmpConnection := some 1, pipes := 1,
              trace := [.setStreamAsConnected 0, .writePacket 0 5, .writePacket 0 6] },
            Relay.mk 1 [] .reading none (.looping sampleMuxer)) ∧
    step sampleEnv .recv busyWorld racingRelay =
      some ({ rtmpState := .BUSY, pipe := some 0, rtmpConnection := some 1, pipes := 1,
              trace := [.setStreamAsConnected 0, .writePacket 0 5] },
            Relay.mk 1 [{ pkt := 6, err := none }] .reading none (.looping sampleMuxer)) := by
  decide

end Rtmp
